import Mathlib

/-!
Shallow embedding of the key-value store engine in
`internal/repository/repository.go` of jeffy-mathew/key-value-store.

The engine is a Go struct `KeyValueStore` holding a `map[string][]byte`,
a `done` channel, and persistence configuration.  We embed:

* Go byte slices as `List Nat` (values are opaque byte sequences);
* the Go map as `GoMap`, which distinguishes Go's `nil` map from a
  non-nil (possibly empty) map, because assignment to a nil map panics
  while lookups and deletes on a nil map are legal no-ops;
* `encoding/gob` serialization of the `Data{Store: ...}` wrapper struct.
  gob omits struct fields whose value is "zero" — and for maps the zero
  test is `Len() == 0` — so encoding an empty (or nil) `Store` map omits
  the field, and decoding such a stream leaves `Store` as a nil map.
  We model a well-formed stream as `FileContent.valid storeField` where
  `storeField : Option entries` records whether the `Store` field was
  transmitted;
* the filesystem at the configured `DataFile` path as a `FileState`
  (absent, unreadable, or holding some bytes);
* panics (`assignment to entry in nil map`, `close of closed channel`)
  as `Except GoPanic` results;
* Go errors as `Option String` (`none` is Go's `nil` error);
* the periodic sync goroutine `startSync` as a function over a list of
  `SyncEvent`s (ticker firings and the `done` signal).
-/

namespace KVRepo

/-- A Go `[]byte` value: an opaque byte sequence. -/
abbrev Value := List Nat

/-- A Go `error` result: `none` is Go's `nil` error. -/
abbrev GoError := Option String

/-- Go runtime panics that the engine code can hit. -/
inductive GoPanic where
  | nilMapAssign
  | closeOfClosedChannel
deriving DecidableEq, Repr

/-- A Go `context.Context` argument.  The engine ignores it entirely; we
record the observable cancellation/expiry state so inertness is statable. -/
structure Context where
  cancelled : Bool
  expired : Bool
deriving DecidableEq, Repr

/-- A Go `map[string][]byte`: either the nil map or a non-nil map given by
its entry list (Go maps are extensional; the list order is irrelevant to
every operation we define). -/
inductive GoMap where
  | nil : GoMap
  | mk (entries : List (String × Value)) : GoMap
deriving DecidableEq, Repr

/-- Lookup in an entry list (first match wins, as in a duplicate-free map). -/
def lookupEntries : List (String × Value) → String → Option Value
  | [], _ => none
  | (k, v) :: rest, key => if k = key then some v else lookupEntries rest key

/-- Go map read `v, ok := m[key]`: a nil map reads as empty. -/
def GoMap.lookup : GoMap → String → Option Value
  | .nil, _ => none
  | .mk es, key => lookupEntries es key

/-- Entry-list update backing Go's `m[key] = v` (replace or append). -/
def assignEntries : List (String × Value) → String → Value → List (String × Value)
  | [], key, v => [(key, v)]
  | (k, w) :: rest, key, v =>
      if k = key then (k, v) :: rest else (k, w) :: assignEntries rest key v

/-- Entry-list removal backing Go's `delete(m, key)`. -/
def removeEntries : List (String × Value) → String → List (String × Value)
  | [], _ => []
  | (k, w) :: rest, key =>
      if k = key then removeEntries rest key else (k, w) :: removeEntries rest key

/-- Go `delete(m, key)`: legal (a no-op) on a nil map. -/
def GoMap.delete : GoMap → String → GoMap
  | .nil, _ => .nil
  | .mk es, key => .mk (removeEntries es key)

/-- Go `len(m)`: a nil map has length 0. -/
def GoMap.len : GoMap → Nat
  | .nil => 0
  | .mk es => es.length

/-- The persistence wrapper struct `Data` from repository.go. -/
structure Data where
  Store : GoMap
deriving DecidableEq, Repr

/-- Bytes stored in the snapshot file: either a well-formed gob stream for
`Data` (with the `Store` field transmitted iff it was non-zero at encode
time), or bytes the gob decoder rejects. -/
inductive FileContent where
  | corrupt : FileContent
  | valid (storeField : Option (List (String × Value))) : FileContent
deriving DecidableEq, Repr

/-- The filesystem at the configured `DataFile` path: the file may be
absent, present but unreadable (a non-`IsNotExist` read error), or present
with readable bytes. -/
inductive FileState where
  | absent : FileState
  | unreadable : FileState
  | written (c : FileContent) : FileState
deriving DecidableEq, Repr

/-- gob encoding of the `Store` field of `Data`: gob's zero test for maps
is `Len() == 0`, so an empty or nil map is omitted from the stream. -/
def encodeStoreField : GoMap → Option (List (String × Value))
  | .nil => none
  | .mk [] => none
  | .mk (e :: es) => some (e :: es)

/-- gob decoding of the `Store` field into a zero `Data`: an omitted field
is left at its zero value, which for a map is the nil map. -/
def decodeStoreField : Option (List (String × Value)) → GoMap
  | none => GoMap.nil
  | some es => GoMap.mk es

/-- `gob.NewEncoder(file).Encode(data)` on a well-formed `Data`. -/
def gobEncode (d : Data) : FileContent :=
  FileContent.valid (encodeStoreField d.Store)

/-- `gob.NewDecoder(bytes.NewReader(data)).Decode(&stored)` into a zero
`Data`. -/
def gobDecode : FileContent → Except String Data
  | .corrupt => .error "gob: decode error"
  | .valid b => .ok ⟨decodeStoreField b⟩

/-- The engine state: the in-memory map and whether `close(k.done)` has
already run.  The logger and config carry no engine-visible state; the
filesystem is passed separately to the operations that touch it. -/
structure KeyValueStore where
  data : GoMap
  doneClosed : Bool
deriving DecidableEq, Repr

/-- Environment faced by one `syncToDisk` call: whether `os.Create`
succeeds and whether the subsequent gob encode/write succeeds. -/
structure DiskEnv where
  createOk : Bool
  encodeOk : Bool
deriving DecidableEq, Repr

/-- `(k *KeyValueStore) Set(ctx, key, value)`: `k.data[key] = value`, then
`return nil`.  Assignment panics when the map is nil. -/
def KeyValueStore.Set (k : KeyValueStore) (_ctx : Context) (key : String)
    (value : Value) : Except GoPanic (GoError × KeyValueStore) :=
  match k.data with
  | .nil => .error GoPanic.nilMapAssign
  | .mk es => .ok (none, { k with data := .mk (assignEntries es key value) })

/-- `(k *KeyValueStore) Get(ctx, key)`: `value, exists := k.data[key];
return value, exists, nil`.  The method body never writes the receiver, so
its translation returns the receiver unchanged alongside the results; a
missing key yields the zero `[]byte`. -/
def KeyValueStore.Get (k : KeyValueStore) (_ctx : Context) (key : String) :
    (Value × Bool × GoError) × KeyValueStore :=
  match k.data.lookup key with
  | some v => ((v, true, none), k)
  | none => (([], false, none), k)

/-- `(k *KeyValueStore) Delete(ctx, key)`: `delete(k.data, key); return
nil`.  Deleting on a nil map is a legal no-op. -/
def KeyValueStore.Delete (k : KeyValueStore) (_ctx : Context) (key : String) :
    GoError × KeyValueStore :=
  (none, { k with data := k.data.delete key })

/-- `(k *KeyValueStore) syncToDisk()`: create/truncate the data file and
gob-encode `Data{Store: k.data}` into it.  Runs under `RLock`, never
touching `k.data`; returns the write error and the new file state. -/
def KeyValueStore.syncToDisk (k : KeyValueStore) (fs : FileState)
    (env : DiskEnv) : GoError × FileState :=
  if env.createOk = false then (some "create failed", fs)
  else if env.encodeOk = false then
    (some "encode failed", FileState.written FileContent.corrupt)
  else (none, FileState.written (gobEncode ⟨k.data⟩))

/-- `(k *KeyValueStore) loadFromDisk()`: read the data file; `IsNotExist`
is ignored (keep the current map), any other read error or a gob decode
error is returned, and on success `k.data = stored.Store`. -/
def KeyValueStore.loadFromDisk (k : KeyValueStore) (fs : FileState) :
    Except String KeyValueStore :=
  match fs with
  | .absent => .ok k
  | .unreadable => .error "read failed"
  | .written c =>
      match gobDecode c with
      | .error e => .error e
      | .ok stored => .ok { k with data := stored.Store }

/-- `NewKeyValueStore(log, config)`: start from a fresh non-nil empty map
and an open `done` channel, hydrate via `loadFromDisk`, and fail
construction if it errors. -/
def NewKeyValueStore (fs : FileState) : Except String KeyValueStore :=
  let kvs : KeyValueStore := { data := GoMap.mk [], doneClosed := false }
  match kvs.loadFromDisk fs with
  | .error e => .error e
  | .ok k => .ok k

/-- `(k *KeyValueStore) Close()`: `close(k.done)` — a panic if the channel
is already closed — then one synchronous `syncToDisk`, whose error is
returned. -/
def KeyValueStore.Close (k : KeyValueStore) (fs : FileState) (env : DiskEnv) :
    Except GoPanic (GoError × KeyValueStore × FileState) :=
  if k.doneClosed then .error GoPanic.closeOfClosedChannel
  else
    let k2 : KeyValueStore := { k with doneClosed := true }
    let r := k2.syncToDisk fs env
    .ok (r.1, k2, r.2)

/-- One event observed by the `startSync` goroutine's `select`: a ticker
firing (with the disk environment that tick's write will face) or the
`done` channel being closed. -/
inductive SyncEvent where
  | tick (env : DiskEnv)
  | done : SyncEvent
deriving DecidableEq, Repr

/-- `(k *KeyValueStore) startSync()` over a finite event schedule: each
tick runs `syncToDisk`, logging (discarding) any error and looping; the
`done` signal returns.  The loop body never writes `k.data`, so the store
is threaded through unchanged. -/
def KeyValueStore.startSync (k : KeyValueStore) :
    List SyncEvent → FileState → KeyValueStore × FileState
  | [], fs => (k, fs)
  | SyncEvent.done :: _, fs => (k, fs)
  | SyncEvent.tick env :: rest, fs => k.startSync rest (k.syncToDisk fs env).2

/-- One caller-issued mutating operation. -/
inductive Op where
  | set (key : String) (value : Value) : Op
  | del (key : String) : Op
deriving DecidableEq, Repr

/-- Whether an operation is a `Set` or `Delete` of the given key. -/
def Op.touches : Op → String → Bool
  | .set k _, key => k = key
  | .del k, key => k = key

/-- Whether an operation is a `Set` of the given key. -/
def Op.setsKey : Op → String → Bool
  | .set k _, key => k = key
  | .del _, _ => false

/-- Apply one operation to the engine, propagating a panic. -/
def KeyValueStore.applyOp (k : KeyValueStore) (ctx : Context) :
    Op → Except GoPanic KeyValueStore
  | .set key v =>
      match k.Set ctx key v with
      | .error p => .error p
      | .ok r => .ok r.2
  | .del key => .ok (k.Delete ctx key).2

/-- Apply a finite sequence of operations to the engine. -/
def KeyValueStore.runOps (k : KeyValueStore) (ctx : Context) :
    List Op → Except GoPanic KeyValueStore
  | [] => .ok k
  | op :: rest =>
      match k.applyOp ctx op with
      | .error p => .error p
      | .ok k2 => k2.runOps ctx rest

/-- The caller-visible part of a `Get`: the returned value and found flag. -/
def getView (k : KeyValueStore) (key : String) : Value × Bool :=
  let r := (k.Get ⟨false, false⟩ key).1
  (r.1, r.2.1)

/-- Whether an `Except` is an error. -/
def isErr {α : Type} : Except String α → Bool
  | .error _ => true
  | .ok _ => false

/-! ### Helper lemmas about the map primitives -/

theorem lookupEntries_assign_self (es : List (String × Value)) (key : String)
    (v : Value) : lookupEntries (assignEntries es key v) key = some v := by
  induction es with
  | nil => simp [assignEntries, lookupEntries]
  | cons e rest ih =>
      by_cases h : e.1 = key
      · simp [assignEntries, lookupEntries, h]
      · simp [assignEntries, lookupEntries, h, ih]

theorem lookupEntries_assign_ne (es : List (String × Value)) (key key2 : String)
    (v : Value) (h : key2 ≠ key) :
    lookupEntries (assignEntries es key v) key2 = lookupEntries es key2 := by
  induction es with
  | nil => simp [assignEntries, lookupEntries, Ne.symm h]
  | cons e rest ih =>
      obtain ⟨k1, w⟩ := e
      by_cases hk : k1 = key
      · subst hk
        simp [assignEntries, lookupEntries, Ne.symm h]
      · simp [assignEntries, lookupEntries, hk, ih]

theorem lookupEntries_remove_self (es : List (String × Value)) (key : String) :
    lookupEntries (removeEntries es key) key = none := by
  induction es with
  | nil => simp [removeEntries, lookupEntries]
  | cons e rest ih =>
      by_cases hk : e.1 = key
      · simp [removeEntries, hk, ih]
      · simp [removeEntries, lookupEntries, hk, ih]

theorem lookupEntries_remove_ne (es : List (String × Value)) (key key2 : String)
    (h : key2 ≠ key) :
    lookupEntries (removeEntries es key) key2 = lookupEntries es key2 := by
  induction es with
  | nil => simp [removeEntries]
  | cons e rest ih =>
      obtain ⟨k1, w⟩ := e
      by_cases hk : k1 = key
      · subst hk
        simp [removeEntries, lookupEntries, Ne.symm h, ih]
      · simp [removeEntries, lookupEntries, hk, ih]

theorem GoMap.lookup_delete_self (m : GoMap) (key : String) :
    (m.delete key).lookup key = none := by
  cases m with
  | nil => rfl
  | mk es => simpa [GoMap.delete, GoMap.lookup] using lookupEntries_remove_self es key

theorem GoMap.lookup_delete_ne (m : GoMap) (key key2 : String) (h : key2 ≠ key) :
    (m.delete key).lookup key2 = m.lookup key2 := by
  cases m with
  | nil => rfl
  | mk es => simpa [GoMap.delete, GoMap.lookup] using lookupEntries_remove_ne es key key2 h

/-- gob round trip: decoding an encoded `Store` map yields a map with the
same lookups (the empty map comes back as the nil map, which reads the
same). -/
theorem lookup_decode_encode (m : GoMap) (key : String) :
    (decodeStoreField (encodeStoreField m)).lookup key = m.lookup key := by
  cases m with
  | nil => rfl
  | mk es => cases es <;> rfl

theorem getView_of_lookup_some (k : KeyValueStore) (key : String) (v : Value)
    (h : k.data.lookup key = some v) : getView k key = (v, true) := by
  simp [getView, KeyValueStore.Get, h]

theorem getView_of_lookup_none (k : KeyValueStore) (key : String)
    (h : k.data.lookup key = none) : getView k key = ([], false) := by
  simp [getView, KeyValueStore.Get, h]

theorem getView_eq_of_lookup_eq (k1 k2 : KeyValueStore) (key : String)
    (h : k1.data.lookup key = k2.data.lookup key) :
    getView k1 key = getView k2 key := by
  cases hv : k1.data.lookup key with
  | none => rw [getView_of_lookup_none _ _ hv, getView_of_lookup_none _ _ (h ▸ hv)]
  | some v => rw [getView_of_lookup_some _ _ _ hv, getView_of_lookup_some _ _ _ (h ▸ hv)]

/-! ### Helper lemmas about operation sequences -/

theorem applyOp_lookup_untouched (k k2 : KeyValueStore) (ctx : Context)
    (op : Op) (key : String) (hop : op.touches key = false)
    (h : k.applyOp ctx op = .ok k2) :
    k2.data.lookup key = k.data.lookup key := by
  cases op with
  | set key2 v =>
      have hne : key ≠ key2 := by
        intro he
        simp [Op.touches, he] at hop
      cases hm : k.data with
      | nil => simp [KeyValueStore.applyOp, KeyValueStore.Set, hm] at h
      | mk es =>
          simp [KeyValueStore.applyOp, KeyValueStore.Set, hm] at h
          subst h
          simpa [GoMap.lookup, hm] using lookupEntries_assign_ne es key2 key v hne
  | del key2 =>
      have hne : key ≠ key2 := by
        intro he
        simp [Op.touches, he] at hop
      simp [KeyValueStore.applyOp, KeyValueStore.Delete] at h
      subst h
      exact GoMap.lookup_delete_ne k.data key2 key hne

theorem runOps_lookup_untouched (ops : List Op) (k k2 : KeyValueStore)
    (ctx : Context) (key : String) (hops : ∀ op ∈ ops, op.touches key = false)
    (h : k.runOps ctx ops = .ok k2) :
    k2.data.lookup key = k.data.lookup key := by
  induction ops generalizing k with
  | nil =>
      simp [KeyValueStore.runOps] at h
      subst h; rfl
  | cons op rest ih =>
      simp only [KeyValueStore.runOps] at h
      cases happ : k.applyOp ctx op with
      | error p => rw [happ] at h; exact absurd h (by simp)
      | ok kmid =>
          rw [happ] at h
          have h1 := applyOp_lookup_untouched k kmid ctx op key
            (hops op (List.mem_cons_self op rest)) happ
          have h2 := ih kmid (fun o ho => hops o (List.mem_cons_of_mem op ho)) h
          rw [h2, h1]

theorem applyOp_preserves_absence (k k2 : KeyValueStore) (ctx : Context)
    (op : Op) (key : String) (hop : op.setsKey key = false)
    (habs : k.data.lookup key = none) (h : k.applyOp ctx op = .ok k2) :
    k2.data.lookup key = none := by
  cases op with
  | set key2 v =>
      have hne : key ≠ key2 := by
        intro he
        simp [Op.setsKey, he] at hop
      cases hm : k.data with
      | nil => simp [KeyValueStore.applyOp, KeyValueStore.Set, hm] at h
      | mk es =>
          simp [KeyValueStore.applyOp, KeyValueStore.Set, hm] at h
          subst h
          rw [hm] at habs
          simp only [GoMap.lookup] at habs ⊢
          rw [lookupEntries_assign_ne es key2 key v hne]
          exact habs
  | del key2 =>
      simp [KeyValueStore.applyOp, KeyValueStore.Delete] at h
      subst h
      by_cases hne : key = key2
      · subst hne
        exact GoMap.lookup_delete_self k.data key
      · rw [GoMap.lookup_delete_ne k.data key2 key hne]
        exact habs

theorem runOps_preserves_absence (ops : List Op) (k k2 : KeyValueStore)
    (ctx : Context) (key : String) (hops : ∀ op ∈ ops, op.setsKey key = false)
    (habs : k.data.lookup key = none) (h : k.runOps ctx ops = .ok k2) :
    k2.data.lookup key = none := by
  induction ops generalizing k with
  | nil =>
      simp [KeyValueStore.runOps] at h
      subst h; exact habs
  | cons op rest ih =>
      simp only [KeyValueStore.runOps] at h
      cases happ : k.applyOp ctx op with
      | error p => rw [happ] at h; exact absurd h (by simp)
      | ok kmid =>
          rw [happ] at h
          exact ih kmid (fun o ho => hops o (List.mem_cons_of_mem op ho))
            (applyOp_preserves_absence k kmid ctx op key
              (hops op (List.mem_cons_self op rest)) habs happ) h

/-- The sync loop never replaces the in-memory store. -/
theorem startSync_fst (k : KeyValueStore) (evs : List SyncEvent)
    (fs : FileState) : (k.startSync evs fs).1 = k := by
  induction evs generalizing fs with
  | nil => rfl
  | cons ev rest ih =>
      cases ev with
      | done => rfl
      | tick env => simpa [KeyValueStore.startSync] using ih _

/-! ### Inversion lemmas for the engine operations -/

theorem Set_ok_inv (k k1 : KeyValueStore) (ctx : Context) (key : String)
    (v : Value) (e : GoError) (h : k.Set ctx key v = .ok (e, k1)) :
    e = none ∧ k1.data.lookup key = some v ∧ k1.doneClosed = k.doneClosed ∧
    ∀ key2, key2 ≠ key → k1.data.lookup key2 = k.data.lookup key2 := by
  cases hm : k.data with
  | nil => simp [KeyValueStore.Set, hm] at h
  | mk es =>
      simp only [KeyValueStore.Set, hm, Except.ok.injEq, Prod.mk.injEq] at h
      obtain ⟨he, hk1⟩ := h
      subst he
      subst hk1
      refine ⟨rfl, ?_, rfl, ?_⟩
      · simpa [GoMap.lookup] using lookupEntries_assign_self es key v
      · intro key2 hne
        simpa [GoMap.lookup, hm] using lookupEntries_assign_ne es key key2 v hne

theorem Close_ok_inv (k kc : KeyValueStore) (fs fs2 : FileState)
    (env : DiskEnv) (err : GoError)
    (h : k.Close fs env = .ok (err, kc, fs2)) :
    k.doneClosed = false ∧ kc = ⟨k.data, true⟩ ∧
    err = (KeyValueStore.syncToDisk ⟨k.data, true⟩ fs env).1 ∧
    fs2 = (KeyValueStore.syncToDisk ⟨k.data, true⟩ fs env).2 := by
  by_cases hd : k.doneClosed = true
  · exfalso
    simp [KeyValueStore.Close, hd] at h
  · have hd2 : k.doneClosed = false := by simpa using hd
    simp only [KeyValueStore.Close, hd2, Bool.false_eq_true, if_false,
      Except.ok.injEq, Prod.mk.injEq] at h
    obtain ⟨h1, h2, h3⟩ := h
    exact ⟨hd2, h2.symm, h1.symm, h3.symm⟩

theorem NewKeyValueStore_absent_inv (k : KeyValueStore)
    (h : NewKeyValueStore FileState.absent = .ok k) :
    k = ⟨GoMap.mk [], false⟩ := by
  simp only [NewKeyValueStore, KeyValueStore.loadFromDisk, Except.ok.injEq] at h
  exact h.symm

theorem NewKeyValueStore_valid_inv (b : Option (List (String × Value)))
    (k : KeyValueStore)
    (h : NewKeyValueStore (FileState.written (FileContent.valid b)) = .ok k) :
    k = ⟨decodeStoreField b, false⟩ := by
  simp only [NewKeyValueStore, KeyValueStore.loadFromDisk, gobDecode,
    Except.ok.injEq] at h
  exact h.symm

theorem Get_error_none (k : KeyValueStore) (ctx : Context) (key : String) :
    (k.Get ctx key).1.2.2 = none := by
  cases h : k.data.lookup key <;> simp [KeyValueStore.Get, h]

theorem Get_state_id (k : KeyValueStore) (ctx : Context) (key : String) :
    (k.Get ctx key).2 = k := by
  cases h : k.data.lookup key <;> simp [KeyValueStore.Get, h]

/-! ### Claims -/

/-- C1: the claim "Set succeeds in every reachable engine state" fails on
the code.  Starting from no data file, construction succeeds with an empty
(non-nil) store; Close writes the final snapshot, but gob omits the
zero-length `Store` map field, so reopening against that very snapshot
hydrates `k.data` as the nil map, and the next Set panics with assignment
to entry in nil map instead of returning a nil error. -/
theorem C1_set_faults_after_empty_snapshot_reload :
    NewKeyValueStore FileState.absent = .ok ⟨GoMap.mk [], false⟩ ∧
    KeyValueStore.Close ⟨GoMap.mk [], false⟩ FileState.absent ⟨true, true⟩ =
      .ok (none, ⟨GoMap.mk [], true⟩,
        FileState.written (FileContent.valid none)) ∧
    NewKeyValueStore (FileState.written (FileContent.valid none)) =
      .ok ⟨GoMap.nil, false⟩ ∧
    KeyValueStore.Set ⟨GoMap.nil, false⟩ ⟨false, false⟩ "a" [1] =
      .error GoPanic.nilMapAssign :=
  ⟨rfl, rfl, rfl, rfl⟩

/-- C9: the ctx argument is inert — any two contexts (cancelled or expired
included) give identical results and identical resulting states for Set,
Get and Delete. -/
theorem C9_ctx_inert (k : KeyValueStore) (ctx1 ctx2 : Context) (key : String)
    (v : Value) :
    k.Set ctx1 key v = k.Set ctx2 key v ∧
    k.Get ctx1 key = k.Get ctx2 key ∧
    k.Delete ctx1 key = k.Delete ctx2 key :=
  ⟨rfl, rfl, rfl⟩

/-- C10: Close is not idempotent — after one successful Close, a second
Close on the same engine panics (close of closed channel) rather than
returning an error or succeeding. -/
theorem C10_close_not_idempotent (k kc : KeyValueStore)
    (fs fs2 fs3 : FileState) (env env2 : DiskEnv) (err : GoError)
    (h : k.Close fs env = .ok (err, kc, fs2)) :
    kc.Close fs3 env2 = .error GoPanic.closeOfClosedChannel := by
  obtain ⟨-, hkc, -, -⟩ := Close_ok_inv _ _ _ _ _ _ h
  subst hkc
  rfl

/-- C10 witness: the panic at a concrete engine. -/
theorem C10_witness :
    KeyValueStore.Close ⟨GoMap.mk [("a", [1])], true⟩ FileState.absent
      ⟨true, true⟩ = .error GoPanic.closeOfClosedChannel :=
  C10_close_not_idempotent ⟨GoMap.mk [("a", [1])], false⟩ _ FileState.absent
    (FileState.written (gobEncode ⟨GoMap.mk [("a", [1])]⟩)) FileState.absent
    ⟨true, true⟩ ⟨true, true⟩ none rfl

/-- C2: persistence round trip — after any construction and any successful
sequence of Set/Delete calls, closing the engine (with the final snapshot
write succeeding) and constructing a new engine against the resulting data
file gives, for every key, the same (value, found) Get result as before
the close. -/
theorem C2_persistence_round_trip (fs0 fsPre fs2 : FileState) (ops : List Op)
    (ctx : Context) (k0 k1 kc k2 : KeyValueStore) (err : GoError)
    (key : String)
    (h0 : NewKeyValueStore fs0 = .ok k0)
    (h1 : k0.runOps ctx ops = .ok k1)
    (h2 : k1.Close fsPre ⟨true, true⟩ = .ok (err, kc, fs2))
    (h3 : NewKeyValueStore fs2 = .ok k2) :
    getView k2 key = getView k1 key := by
  obtain ⟨-, -, -, hfs2⟩ := Close_ok_inv _ _ _ _ _ _ h2
  have hfs2b : fs2 =
      FileState.written (FileContent.valid (encodeStoreField k1.data)) := by
    simpa [KeyValueStore.syncToDisk, gobEncode] using hfs2
  subst hfs2b
  have hk2 := NewKeyValueStore_valid_inv _ _ h3
  subst hk2
  exact getView_eq_of_lookup_eq _ _ key
    (by simpa using lookup_decode_encode k1.data key)

/-- C2 witness: a concrete round trip of one written key. -/
theorem C2_witness :
    getView ⟨GoMap.mk [("a", [1])], false⟩ "a" =
      getView ⟨GoMap.mk [("a", [1])], false⟩ "a" :=
  C2_persistence_round_trip FileState.absent FileState.absent
    (FileState.written (FileContent.valid (some [("a", [1])])))
    [Op.set "a" [1]] ⟨false, false⟩ ⟨GoMap.mk [], false⟩
    ⟨GoMap.mk [("a", [1])], false⟩ ⟨GoMap.mk [("a", [1])], true⟩
    ⟨GoMap.mk [("a", [1])], false⟩ none "a" rfl rfl rfl rfl

/-- C3: read-your-write — after a completed Set(k, v), Get(k) returns
(v, true); it still does after any successful operations that touch only
other keys; and a second Set(k, v2) makes Get(k) return (v2, true) (last
write wins). -/
theorem C3_read_your_write (k k1 k2 k3 : KeyValueStore)
    (ctx ctx2 ctx3 : Context) (key : String) (v v2 : Value) (e e2 : GoError)
    (ops : List Op)
    (hset : k.Set ctx key v = .ok (e, k1))
    (hops : ∀ op ∈ ops, op.touches key = false)
    (hrun : k1.runOps ctx2 ops = .ok k2)
    (hset2 : k1.Set ctx3 key v2 = .ok (e2, k3)) :
    getView k1 key = (v, true) ∧ getView k2 key = (v, true) ∧
    getView k3 key = (v2, true) := by
  obtain ⟨-, hv, -, -⟩ := Set_ok_inv _ _ _ _ _ _ hset
  obtain ⟨-, hv2, -, -⟩ := Set_ok_inv _ _ _ _ _ _ hset2
  have hstable := runOps_lookup_untouched ops k1 k2 ctx2 key hops hrun
  exact ⟨getView_of_lookup_some _ _ _ hv,
    getView_of_lookup_some _ _ _ (hstable.trans hv),
    getView_of_lookup_some _ _ _ hv2⟩

/-- C3 witness: the scenario at concrete keys and values. -/
theorem C3_witness :
    getView ⟨GoMap.mk [("a", [1])], false⟩ "a" = ([1], true) ∧
    getView ⟨GoMap.mk [("a", [1]), ("b", [3])], false⟩ "a" = ([1], true) ∧
    getView ⟨GoMap.mk [("a", [2])], false⟩ "a" = ([2], true) :=
  C3_read_your_write ⟨GoMap.mk [], false⟩ ⟨GoMap.mk [("a", [1])], false⟩
    ⟨GoMap.mk [("a", [1]), ("b", [3])], false⟩ ⟨GoMap.mk [("a", [2])], false⟩
    ⟨false, false⟩ ⟨false, false⟩ ⟨false, false⟩ "a" [1] [2] none none
    [Op.set "b" [3], Op.del "c"] rfl (by decide) rfl rfl

/-- C4: Delete always returns a nil error (also on an absent key, where it
is a no-op); afterwards Get(k) reports found = false, and it keeps doing
so across any successful operations none of which is a Set of k. -/
theorem C4_delete_absence (k k2 : KeyValueStore) (ctx ctx2 : Context)
    (key : String) (ops : List Op)
    (hops : ∀ op ∈ ops, op.setsKey key = false)
    (hrun : ((k.Delete ctx key).2).runOps ctx2 ops = .ok k2) :
    (k.Delete ctx key).1 = none ∧
    getView (k.Delete ctx key).2 key = ([], false) ∧
    (getView k2 key).2 = false := by
  have habs : ((k.Delete ctx key).2).data.lookup key = none := by
    simpa [KeyValueStore.Delete] using GoMap.lookup_delete_self k.data key
  have habs2 := runOps_preserves_absence ops _ k2 ctx2 key hops habs hrun
  refine ⟨rfl, getView_of_lookup_none _ _ habs, ?_⟩
  rw [getView_of_lookup_none _ _ habs2]

/-- C4 witness: deleting a present key, then touching another key. -/
theorem C4_witness :
    ((⟨GoMap.mk [("a", [1])], false⟩ : KeyValueStore).Delete ⟨false, false⟩
      "a").1 = none ∧
    getView ((⟨GoMap.mk [("a", [1])], false⟩ : KeyValueStore).Delete
      ⟨false, false⟩ "a").2 "a" = ([], false) ∧
    (getView ⟨GoMap.mk [("b", [2])], false⟩ "a").2 = false :=
  C4_delete_absence ⟨GoMap.mk [("a", [1])], false⟩
    ⟨GoMap.mk [("b", [2])], false⟩ ⟨false, false⟩ ⟨false, false⟩ "a"
    [Op.set "b" [2]] (by decide) rfl

/-- C5: construction is a three-way case split on the snapshot file — an
absent file yields an engine whose every Get reports found = false; an
unreadable or undecodable file makes construction return an error and no
engine; a valid file hydrates the store from its decoded contents before
any caller operation. -/
theorem C5_construction_cases (key : String)
    (blob : Option (List (String × Value))) (kA kV : KeyValueStore)
    (hA : NewKeyValueStore FileState.absent = .ok kA)
    (hV : NewKeyValueStore (FileState.written (FileContent.valid blob)) =
      .ok kV) :
    getView kA key = ([], false) ∧
    isErr (NewKeyValueStore FileState.unreadable) = true ∧
    isErr (NewKeyValueStore (FileState.written FileContent.corrupt)) = true ∧
    kV = ⟨decodeStoreField blob, false⟩ := by
  have hkA := NewKeyValueStore_absent_inv _ hA
  subst hkA
  exact ⟨getView_of_lookup_none _ _ rfl, rfl, rfl,
    NewKeyValueStore_valid_inv _ _ hV⟩

/-- C5 witness: the case split at a concrete one-entry snapshot. -/
theorem C5_witness :
    getView ⟨GoMap.mk [], false⟩ "a" = ([], false) ∧
    isErr (NewKeyValueStore FileState.unreadable) = true ∧
    isErr (NewKeyValueStore (FileState.written FileContent.corrupt)) = true ∧
    (⟨GoMap.mk [("a", [1])], false⟩ : KeyValueStore) =
      ⟨decodeStoreField (some [("a", [1])]), false⟩ :=
  C5_construction_cases "a" (some [("a", [1])]) ⟨GoMap.mk [], false⟩
    ⟨GoMap.mk [("a", [1])], false⟩ rfl rfl

/-- C6: a failed periodic snapshot write returns a non-nil error that is
only logged — the in-memory store threaded through the sync loop is
unchanged, the loop proceeds to the next event and a following good tick
writes the snapshot, and no Set/Get/Delete caller ever sees a non-nil
error. -/
theorem C6_sync_failure_isolated (k k1 : KeyValueStore) (fs : FileState)
    (env : DiskEnv) (ctx : Context) (key : String) (v : Value) (e : GoError)
    (evs : List SyncEvent)
    (hfail : env.createOk = false ∨ env.encodeOk = false)
    (hset : k.Set ctx key v = .ok (e, k1)) :
    (k.syncToDisk fs env).1 ≠ none ∧
    (k.startSync (SyncEvent.tick env :: evs) fs).1 = k ∧
    k.startSync (SyncEvent.tick env :: evs) fs =
      k.startSync evs (k.syncToDisk fs env).2 ∧
    k.startSync [SyncEvent.tick env, SyncEvent.tick ⟨true, true⟩] fs =
      (k, FileState.written (gobEncode ⟨k.data⟩)) ∧
    e = none ∧ (k.Get ctx key).1.2.2 = none ∧
    (k.Delete ctx key).1 = none := by
  obtain ⟨he, -, -, -⟩ := Set_ok_inv _ _ _ _ _ _ hset
  refine ⟨?_, startSync_fst _ _ _, rfl, ?_, he, Get_error_none _ _ _, rfl⟩
  · obtain ⟨c, en⟩ := env
    rcases hfail with h | h
    · subst h; simp [KeyValueStore.syncToDisk]
    · subst h; cases c <;> simp [KeyValueStore.syncToDisk]
  · simp [KeyValueStore.startSync, KeyValueStore.syncToDisk]

/-- C6 witness: a create failure at a concrete store and schedule. -/
theorem C6_witness :
    ((⟨GoMap.mk [("a", [1])], false⟩ : KeyValueStore).syncToDisk
      FileState.absent ⟨false, true⟩).1 ≠ none ∧
    ((⟨GoMap.mk [("a", [1])], false⟩ : KeyValueStore).startSync
      [SyncEvent.tick ⟨false, true⟩] FileState.absent).1 =
      ⟨GoMap.mk [("a", [1])], false⟩ ∧
    (⟨GoMap.mk [("a", [1])], false⟩ : KeyValueStore).startSync
      [SyncEvent.tick ⟨false, true⟩] FileState.absent =
      (⟨GoMap.mk [("a", [1])], false⟩ : KeyValueStore).startSync []
        ((⟨GoMap.mk [("a", [1])], false⟩ : KeyValueStore).syncToDisk
          FileState.absent ⟨false, true⟩).2 ∧
    (⟨GoMap.mk [("a", [1])], false⟩ : KeyValueStore).startSync
      [SyncEvent.tick ⟨false, true⟩, SyncEvent.tick ⟨true, true⟩]
      FileState.absent =
      (⟨GoMap.mk [("a", [1])], false⟩,
        FileState.written (gobEncode ⟨GoMap.mk [("a", [1])]⟩)) ∧
    (none : GoError) = none ∧
    ((⟨GoMap.mk [("a", [1])], false⟩ : KeyValueStore).Get ⟨false, false⟩
      "a").1.2.2 = none ∧
    ((⟨GoMap.mk [("a", [1])], false⟩ : KeyValueStore).Delete ⟨false, false⟩
      "a").1 = none :=
  C6_sync_failure_isolated ⟨GoMap.mk [("a", [1])], false⟩
    ⟨GoMap.mk [("a", [1])], false⟩ FileState.absent ⟨false, true⟩
    ⟨false, false⟩ "a" [1] none [] (Or.inl rfl) rfl

/-- C7: a successful Close marks the done channel closed (so the sync loop
exits on its next event) while keeping the dataset, performs exactly one
final synchronous snapshot write, and returns that write's error — nil
exactly when the write succeeded. -/
theorem C7_close_cancels_and_flushes (k kc : KeyValueStore)
    (fs fs2 fs0 : FileState) (env : DiskEnv) (err : GoError)
    (evs : List SyncEvent)
    (h : k.Close fs env = .ok (err, kc, fs2)) :
    kc = ⟨k.data, true⟩ ∧
    err = (kc.syncToDisk fs env).1 ∧
    fs2 = (kc.syncToDisk fs env).2 ∧
    (err = none ↔ env.createOk = true ∧ env.encodeOk = true) ∧
    kc.startSync (SyncEvent.done :: evs) fs0 = (kc, fs0) := by
  obtain ⟨-, hkc, herr, hfs2⟩ := Close_ok_inv _ _ _ _ _ _ h
  subst hkc
  refine ⟨rfl, herr, hfs2, ?_, rfl⟩
  subst herr
  obtain ⟨c, en⟩ := env
  cases c <;> cases en <;> simp [KeyValueStore.syncToDisk]

/-- C7 witness: a concrete successful close. -/
theorem C7_witness :
    (⟨GoMap.mk [("a", [1])], true⟩ : KeyValueStore) =
      ⟨GoMap.mk [("a", [1])], true⟩ ∧
    (none : GoError) =
      ((⟨GoMap.mk [("a", [1])], true⟩ : KeyValueStore).syncToDisk
        FileState.absent ⟨true, true⟩).1 ∧
    FileState.written (gobEncode ⟨GoMap.mk [("a", [1])]⟩) =
      ((⟨GoMap.mk [("a", [1])], true⟩ : KeyValueStore).syncToDisk
        FileState.absent ⟨true, true⟩).2 ∧
    ((none : GoError) = none ↔
      (⟨true, true⟩ : DiskEnv).createOk = true ∧
      (⟨true, true⟩ : DiskEnv).encodeOk = true) ∧
    (⟨GoMap.mk [("a", [1])], true⟩ : KeyValueStore).startSync
      [SyncEvent.done] FileState.absent =
      (⟨GoMap.mk [("a", [1])], true⟩, FileState.absent) :=
  C7_close_cancels_and_flushes ⟨GoMap.mk [("a", [1])], false⟩
    ⟨GoMap.mk [("a", [1])], true⟩ FileState.absent
    (FileState.written (gobEncode ⟨GoMap.mk [("a", [1])]⟩)) FileState.absent
    ⟨true, true⟩ none [] rfl

/-- C8: in every store state (the nil-map state included), Get leaves the
receiver unchanged and Delete(k) leaves the Get view of every other key
unchanged; and whenever Set(k, v) completes, it too leaves the Get view of
every other key unchanged. -/
theorem C8_frame (k k1 : KeyValueStore) (ctx ctx2 ctx3 : Context)
    (key key2 : String) (v : Value) (e : GoError)
    (hne : key2 ≠ key) :
    (k.Get ctx2 key2).2 = k ∧
    getView (k.Delete ctx3 key).2 key2 = getView k key2 ∧
    (k.Set ctx key v = .ok (e, k1) →
      getView k1 key2 = getView k key2) := by
  refine ⟨Get_state_id k ctx2 key2, ?_, ?_⟩
  · refine getView_eq_of_lookup_eq _ _ key2 ?_
    simpa [KeyValueStore.Delete] using
      GoMap.lookup_delete_ne k.data key key2 hne
  · intro hset
    obtain ⟨-, -, -, hother⟩ := Set_ok_inv _ _ _ _ _ _ hset
    exact getView_eq_of_lookup_eq _ _ key2 (hother key2 hne)

/-- C8 witness: the frame at a concrete two-key store. -/
theorem C8_witness :
    ((⟨GoMap.mk [("b", [2])], false⟩ : KeyValueStore).Get ⟨false, false⟩
      "b").2 = ⟨GoMap.mk [("b", [2])], false⟩ ∧
    getView ((⟨GoMap.mk [("b", [2])], false⟩ : KeyValueStore).Delete
      ⟨false, false⟩ "a").2 "b" =
      getView ⟨GoMap.mk [("b", [2])], false⟩ "b" ∧
    ((⟨GoMap.mk [("b", [2])], false⟩ : KeyValueStore).Set ⟨false, false⟩
        "a" [1] =
        .ok (none, ⟨GoMap.mk [("b", [2]), ("a", [1])], false⟩) →
      getView ⟨GoMap.mk [("b", [2]), ("a", [1])], false⟩ "b" =
        getView ⟨GoMap.mk [("b", [2])], false⟩ "b") :=
  C8_frame ⟨GoMap.mk [("b", [2])], false⟩
    ⟨GoMap.mk [("b", [2]), ("a", [1])], false⟩ ⟨false, false⟩ ⟨false, false⟩
    ⟨false, false⟩ "a" "b" [1] none (by decide)

end KVRepo
